import Mathlib

/-!
# Verification of `analysis_student_performance.py`

A shallow embedding of the data-quality analysis script
`src/analysis_student_performance.py` and proofs about the reports it
produces.

The script is a linear pandas program over a single dataframe.  We model
the dataframe as a `Table`: a list of column names together with a list of
rows, a row being a list of optional cells (a `none` cell is a pandas
`NaN` / missing value).  A cell is either a numeric value (modelled as a
rational, since all numbers in the dataset are small integers and all the
script's arithmetic on them is exact up to the final float printing) or a
categorical string.

Pandas semantics that the embedding must respect:
* comparisons against `NaN` (`NaN >= 10`, `NaN < 0`, ...) are `False`;
* `Series.value_counts()` drops `NaN` by default;
* `DataFrame.duplicated()` marks a row iff it equals an *earlier* row
  (`keep='first'`);
* `DataFrame.corr()` computes Pearson correlation on pairwise-complete
  observations and yields `NaN` when a column has zero variance (we model
  the float `NaN` of a correlation entry as `Option.none`);
* `Series.round(2)` rounds half to even (numpy rounding);
* division of the all-zero missing-count series by a row count of zero
  yields `NaN` percentages (`0/0`), modelled as `none`.
-/

namespace StudentPerf

/-- A dataframe cell: a numeric value or a categorical (string) code. -/
inductive Cell where
  | num (q : ℚ)
  | str (s : String)
deriving DecidableEq, Repr

/-- A row: one optional cell per column; `none` is a missing value (NaN). -/
abbrev Row := List (Option Cell)

/-- The dataframe loaded by the script: named columns and a list of rows. -/
structure Table where
  cols : List String
  rows : List Row
deriving DecidableEq, Repr

/-- Extract the values of column `c` (top to bottom), or `none` when the
table has no such column: the embedding of `df[c]` guarded by
`"c" in df.columns`.  A row too short to reach the column contributes a
missing value. -/
def getCol (t : Table) (c : String) : Option (List (Option Cell)) :=
  if c ∈ t.cols then
    some (t.rows.map (fun r => ((r.get? (t.cols.indexOf c)).join)))
  else
    none

/-- The numeric view of a cell: `Cell.str` is not a number. -/
def Cell.asNum : Cell → Option ℚ
  | Cell.num q => some q
  | Cell.str _ => none

/-- Column `c` as a numeric series (missing entries and non-numeric cells
are `none`), the series `df[c]` of a numeric column. -/
def colNum (t : Table) (c : String) : List (Option ℚ) :=
  ((getCol t c).getD []).map (fun oc => oc.bind Cell.asNum)

/-- A column is numeric (pandas numeric dtype) when every present cell is
a number: the embedding of `select_dtypes(include=[np.number])`. -/
def isNumericCol (t : Table) (c : String) : Bool :=
  ((getCol t c).getD []).all (fun oc =>
    match oc with
    | none => true
    | some (Cell.num _) => true
    | some (Cell.str _) => false)

/-- `num_cols = df.select_dtypes(include=[np.number]).columns.tolist()`. -/
def numCols (t : Table) : List String :=
  t.cols.filter (fun c => isNumericCol t c)

/-- `grade_cols = [c for c in ["G1", "G2", "G3"] if c in df.columns]`. -/
def gradeCols (t : Table) : List String :=
  (["G1", "G2", "G3"]).filter (fun c => c ∈ t.cols)

/-- `len(invalid_low)` for grade column `g`: rows with `df[g] < 0`.
A `NaN` compares false in pandas, so missing values are not counted. -/
def invalidLow (t : Table) (g : String) : ℕ :=
  (colNum t g).countP (fun ov =>
    match ov with
    | some v => decide (v < 0)
    | none => false)

/-- `len(invalid_high)` for grade column `g`: rows with `df[g] > 20`. -/
def invalidHigh (t : Table) (g : String) : ℕ :=
  (colNum t g).countP (fun ov =>
    match ov with
    | some v => decide (20 < v)
    | none => false)

/-- Count of values inside the hard-coded grade domain `[0, 20]`
(the quantity the spec's partition property talks about). -/
def countInRange (t : Table) (g : String) : ℕ :=
  (colNum t g).countP (fun ov =>
    match ov with
    | some v => decide (0 ≤ v) && decide (v ≤ 20)
    | none => false)

/-- Number of non-missing values in column `c`. -/
def nonMissingCount (t : Table) (g : String) : ℕ :=
  (colNum t g).countP (fun ov => ov.isSome)

/-- The target grade column of the pass/fail and correlation sections:
`target = grade_cols[-1]` (`none` when no grade column is present, in
which case the script skips both sections). -/
def targetCol (t : Table) : Option String :=
  (gradeCols t).getLast?

/-- The pandas comparison `value >= 10` on a possibly-missing value: a
`NaN` compares `False`. -/
def geTen (ov : Option ℚ) : Bool :=
  match ov with
  | some v => decide (10 ≤ v)
  | none => false

/-- `df["pass_fail"] = (df[target] >= 10).astype(int)`, computed only
when `set(grade_cols)` is non-empty.  The column is an integer column:
it has no missing entries. -/
def passFailCol (t : Table) : Option (List ℤ) :=
  (targetCol t).map (fun tg =>
    (colNum t tg).map (fun ov => if geTen ov then 1 else 0))

/-- The pass/fail value of row `i`, viewed through the derived column
(`none` only when the section was skipped or `i` is out of range). -/
def passFailAt (t : Table) (i : ℕ) : Option ℤ :=
  (passFailCol t).bind (fun l => l.get? i)

/-- The final-grade value of row `i` (`none` when missing). -/
def gradeAt (t : Table) (tg : String) (i : ℕ) : Option ℚ :=
  ((colNum t tg).get? i).join

/-- Modelled from the claim's words (C1): the derived pass/fail value of
a row is 1 iff the final grade is ≥ 10, 0 otherwise, and undefined /
missing iff the row's final grade is missing. -/
def specC1 (t : Table) (tg : String) : Prop :=
  ∀ i, i < t.rows.length →
    (passFailAt t i = none ↔ gradeAt t tg i = none) ∧
    (∀ v, gradeAt t tg i = some v →
      (passFailAt t i = some 1 ↔ 10 ≤ v) ∧ (passFailAt t i = some 0 ↔ v < 10))

/-- `df.duplicated()` (keep='first'): a row is flagged iff it equals a
row seen earlier; `seen` accumulates the rows already scanned. -/
def duplicatedFlags (seen : List Row) : List Row → List Bool
  | [] => []
  | r :: rs => decide (r ∈ seen) :: duplicatedFlags (r :: seen) rs

/-- `dup_count = df.duplicated().sum()`. -/
def dupCount (t : Table) : ℕ :=
  (duplicatedFlags [] t.rows).count true

/-- Modelled from the claim's words (C2): the number of rows whose full
tuple of values matches another (distinct) row's. -/
def specMatchedRowCount (t : Table) : ℕ :=
  (List.range t.rows.length).countP (fun i =>
    decide (∃ j ∈ List.range t.rows.length, j ≠ i ∧
      t.rows.getD j [] = t.rows.getD i []))

/-- numpy / pandas rounding to the nearest integer, ties to even
(the rounding behind `Series.round`); away from a tie this is rounding
to the nearest integer. -/
def roundHalfEven (x : ℚ) : ℤ :=
  if x - ⌊x⌋ = 1/2 then
    (if ⌊x⌋ % 2 = 0 then ⌊x⌋ else ⌊x⌋ + 1)
  else round x

/-- `Series.round(2)`: round to two decimal places, ties to even. -/
def round2 (x : ℚ) : ℚ :=
  (roundHalfEven (x * 100) : ℚ) / 100

/-- `df.isna().sum()` for one column. -/
def missingCount (t : Table) (c : String) : ℕ :=
  ((getCol t c).getD []).countP (fun oc => oc.isNone)

/-- `(missing_counts / len(df)) * 100`, rounded to two decimals: the
`missing_percent` column of the report.  With zero rows the division is
the float `0/0 = NaN`, modelled as `none`. -/
def missingPercent (t : Table) (c : String) : Option ℚ :=
  if t.rows.length = 0 then none
  else some (round2 ((missingCount t c : ℚ) / (t.rows.length : ℚ) * 100))

/-- One line of the missing-values report:
(column, missing_count, missing_percent). -/
abbrev MissingEntry := String × ℕ × Option ℚ

/-- The rows of `missing_df` before sorting, one per column. -/
def missingEntries (t : Table) : List MissingEntry :=
  t.cols.map (fun c => (c, missingCount t c, missingPercent t c))

/-- The order of `sort_values(by="missing_count", ascending=False)`. -/
def missingRel (a b : MissingEntry) : Prop := b.2.1 ≤ a.2.1

instance : DecidableRel missingRel := fun _ _ => Nat.decLe _ _

instance : IsTotal MissingEntry missingRel :=
  ⟨fun a b => le_total b.2.1 a.2.1⟩

instance : IsTrans MissingEntry missingRel :=
  ⟨fun _ _ _ h1 h2 => le_trans h2 h1⟩

/-- `missing_df`, sorted descending by `missing_count`. -/
def missingReport (t : Table) : List MissingEntry :=
  List.insertionSort missingRel (missingEntries t)

/-- A concrete table of three students used as a witness input: columns
school, sex, age, G1, G2, G3, absences; one missing age and one missing
G3. -/
def wTable : Table :=
  { cols := ["school", "sex", "age", "G1", "G2", "G3", "absences"]
    rows :=
      [ [some (Cell.str "GP"), some (Cell.str "F"), some (Cell.num 15),
         some (Cell.num 12), some (Cell.num 13), some (Cell.num 14),
         some (Cell.num 2)],
        [some (Cell.str "GP"), some (Cell.str "M"), none,
         some (Cell.num 8), some (Cell.num 9), some (Cell.num 25),
         some (Cell.num 4)],
        [some (Cell.str "MS"), some (Cell.str "F"), some (Cell.num 16),
         some (Cell.num 10), some (Cell.num 10), none,
         some (Cell.num 0)] ] }

/-- A one-row table whose final grade is missing. -/
def ctMissing : Table :=
  { cols := ["G3"], rows := [[none]] }

/-- A two-row table whose rows are identical. -/
def ctDup : Table :=
  { cols := ["school"],
    rows := [[some (Cell.str "GP")], [some (Cell.str "GP")]] }

/-- The claim's end-to-end table: columns
{school, sex, age, G1, G2, G3, absences}, 5 rows of which the last fully
duplicates the first, and one G3 value is 25. -/
def scenario5 : Table :=
  { cols := ["school", "sex", "age", "G1", "G2", "G3", "absences"]
    rows :=
      [ [some (Cell.str "GP"), some (Cell.str "F"), some (Cell.num 15),
         some (Cell.num 10), some (Cell.num 11), some (Cell.num 12),
         some (Cell.num 2)],
        [some (Cell.str "GP"), some (Cell.str "M"), some (Cell.num 16),
         some (Cell.num 8), some (Cell.num 9), some (Cell.num 25),
         some (Cell.num 4)],
        [some (Cell.str "MS"), some (Cell.str "F"), some (Cell.num 17),
         some (Cell.num 14), some (Cell.num 15), some (Cell.num 16),
         some (Cell.num 0)],
        [some (Cell.str "GP"), some (Cell.str "M"), some (Cell.num 16),
         some (Cell.num 9), some (Cell.num 10), some (Cell.num 11),
         some (Cell.num 6)],
        [some (Cell.str "GP"), some (Cell.str "F"), some (Cell.num 15),
         some (Cell.num 10), some (Cell.num 11), some (Cell.num 12),
         some (Cell.num 2)] ] }

/-- A ten-row table with exactly two missing values in column age. -/
def wTable10 : Table :=
  { cols := ["age"],
    rows := List.replicate 8 [some (Cell.num 15)] ++ List.replicate 2 [none] }

/-- A three-row table with one missing value in column age: the exact
percentage 100·1/3 is not representable after rounding to two decimal
places. -/
def ct3 : Table :=
  { cols := ["age"],
    rows := [[some (Cell.num 15)], [none], [some (Cell.num 16)]] }

/-- First occurrences of the distinct values of a list, in order of
first appearance, skipping values already in `seen`: the index of a
pandas `value_counts` result before sorting. -/
def uniquesAux {α : Type} [DecidableEq α] (seen : List α) : List α → List α
  | [] => []
  | a :: as =>
    if a ∈ seen then uniquesAux seen as
    else a :: uniquesAux (a :: seen) as

/-- Ordering of a `value_counts` result: descending by count. -/
def countRel {α : Type} (a b : α × ℕ) : Prop := b.2 ≤ a.2

instance {α : Type} : DecidableRel (countRel (α := α)) :=
  fun _ _ => Nat.decLe _ _

instance {α : Type} : IsTotal (α × ℕ) countRel :=
  ⟨fun a b => le_total b.2 a.2⟩

instance {α : Type} : IsTrans (α × ℕ) countRel :=
  ⟨fun _ _ _ h1 h2 => le_trans h2 h1⟩

/-- `Series.value_counts()` on the non-missing values `l`: each distinct
value with its multiplicity, sorted descending by count. -/
def valueCounts {α : Type} [DecidableEq α] (l : List α) : List (α × ℕ) :=
  List.insertionSort countRel ((uniquesAux [] l).map (fun v => (v, l.count v)))

/-- Ordering of `sort_index()` on a numeric index: ascending by value. -/
def idxRel {β : Type} (a b : ℚ × β) : Prop := a.1 ≤ b.1

instance {β : Type} : DecidableRel (idxRel (β := β)) :=
  fun a b => inferInstanceAs (Decidable (a.1 ≤ b.1))

instance {β : Type} : IsTotal (ℚ × β) idxRel :=
  ⟨fun a b => le_total a.1 b.1⟩

instance {β : Type} : IsTrans (ℚ × β) idxRel :=
  ⟨fun _ _ _ h1 h2 => le_trans h1 h2⟩

/-- The non-missing numeric values of column `c`. -/
def colVals (t : Table) (c : String) : List ℚ :=
  (colNum t c).filterMap id

/-- `df["age"].value_counts().sort_index()`: the age distribution the
script prints — raw counts indexed by age value, ascending. -/
def ageDist (t : Table) : List (ℚ × ℕ) :=
  List.insertionSort idxRel (valueCounts (colVals t "age"))

/-- Modelled from the claim's words (C6): the age distribution printed
as a normalized percentage frequency distribution sorted by age value —
what `value_counts(normalize=True).sort_index() * 100` would produce. -/
def specAgeDistNormalized (t : Table) : List (ℚ × ℚ) :=
  List.insertionSort idxRel
    ((valueCounts (colVals t "age")).map (fun p =>
      (p.1, (p.2 : ℚ) / ((colVals t "age").length : ℚ) * 100)))

/-- A four-row table whose ages are 15, 15, 16, 17. -/
def ctAge : Table :=
  { cols := ["age"],
    rows := [[some (Cell.num 15)], [some (Cell.num 15)],
             [some (Cell.num 16)], [some (Cell.num 17)]] }

/-- A table with columns but no rows. -/
def ctEmpty : Table :=
  { cols := ["age", "G3"], rows := [] }

/-- The summary block of `Series.describe()`. -/
structure DescribeStats where
  count : ℕ
  mean : Option ℚ
  std : Option ℝ
  min : Option ℚ
  q25 : Option ℚ
  q50 : Option ℚ
  q75 : Option ℚ
  max : Option ℚ

/-- numpy's linear-interpolation quantile on a sorted list (`none` on an
empty list, like the NaN pandas shows for an empty column). -/
def quantileSorted (p : ℚ) (xs : List ℚ) : Option ℚ :=
  if xs.length = 0 then none
  else
    let h : ℚ := p * ((xs.length : ℚ) - 1)
    let i : ℕ := (⌊h⌋).toNat
    let lo := xs.getD i 0
    let hi := xs.getD (i + 1) lo
    some (lo + (h - (i : ℚ)) * (hi - lo))

/-- `Series.describe()`: count, mean, sample standard deviation
(ddof = 1, NaN below two values), min, quartiles, max over the
non-missing values. -/
noncomputable def describe (l : List (Option ℚ)) : DescribeStats :=
  let vals := l.filterMap id
  let n := vals.length
  let sorted := List.insertionSort (· ≤ ·) vals
  { count := n
    mean := if n = 0 then none else some (vals.sum / (n : ℚ))
    std := if 2 ≤ n then
        some (Real.sqrt
          (((vals.map (fun x => (x - vals.sum / (n : ℚ)) ^ 2)).sum : ℚ)
            / ((n : ℚ) - 1)))
      else none
    min := sorted.head?
    q25 := quantileSorted (1/4) sorted
    q50 := quantileSorted (1/2) sorted
    q75 := quantileSorted (3/4) sorted
    max := sorted.getLast? }

/-- The absences validity section (`df["absences"].describe()`), guarded
by `if "absences" in df.columns`. -/
noncomputable def absencesSection (t : Table) : Option DescribeStats :=
  if "absences" ∈ t.cols then some (describe (colNum t "absences")) else none

/-- The non-missing cells of a column (what `value_counts` sees). -/
def cellVals (t : Table) (c : String) : List Cell :=
  ((getCol t c).getD []).filterMap id

/-- `value_counts(normalize=True) * 100` on the non-missing values. -/
def normalizedDist (l : List Cell) : List (Cell × ℚ) :=
  (valueCounts l).map (fun p => (p.1, (p.2 : ℚ) / (l.length : ℚ) * 100))

/-- The school distribution section, guarded by column presence. -/
def schoolSection (t : Table) : Option (List (Cell × ℚ)) :=
  if "school" ∈ t.cols then some (normalizedDist (cellVals t "school")) else none

/-- The sex distribution section, guarded by column presence. -/
def sexSection (t : Table) : Option (List (Cell × ℚ)) :=
  if "sex" ∈ t.cols then some (normalizedDist (cellVals t "sex")) else none

/-- The age distribution section, guarded by column presence. -/
def ageSection (t : Table) : Option (List (ℚ × ℕ)) :=
  if "age" ∈ t.cols then some (ageDist t) else none

/-- `value_counts(normalize=True).sort_index() * 100` on a numeric
column: the parental-education distributions. -/
def normalizedDistByIndex (l : List ℚ) : List (ℚ × ℚ) :=
  List.insertionSort idxRel
    ((valueCounts l).map (fun p => (p.1, (p.2 : ℚ) / (l.length : ℚ) * 100)))

/-- The Medu (mother's education) section of the parent-education loop:
present iff the column survives the `parent_edu_cols` filter. -/
def meduSection (t : Table) : Option (List (ℚ × ℚ)) :=
  if "Medu" ∈ t.cols then some (normalizedDistByIndex (colVals t "Medu")) else none

/-- The Fedu (father's education) section of the parent-education loop. -/
def feduSection (t : Table) : Option (List (ℚ × ℚ)) :=
  if "Fedu" ∈ t.cols then some (normalizedDistByIndex (colVals t "Fedu")) else none

/-- The per-grade-column validity lines: one (column, values < 0,
values > 20) triple per grade column present. -/
def gradeValiditySection (t : Table) : List (String × ℕ × ℕ) :=
  (gradeCols t).map (fun g => (g, invalidLow t g, invalidHigh t g))

/-- Pairwise-complete observations of two series: the pairs of rows
where both values are present (what `DataFrame.corr()` correlates). -/
def pairsComplete : List (Option ℚ) → List (Option ℚ) → List (ℚ × ℚ)
  | some a :: xs, some b :: ys => (a, b) :: pairsComplete xs ys
  | _ :: xs, _ :: ys => pairsComplete xs ys
  | _, _ => []

/-- Numerator of the Pearson correlation over the pairs `ps`:
n·Σxy − Σx·Σy. -/
def pearsonNum (ps : List (ℚ × ℚ)) : ℚ :=
  (ps.length : ℚ) * (ps.map (fun p => p.1 * p.2)).sum
    - (ps.map (fun p => p.1)).sum * (ps.map (fun p => p.2)).sum

/-- Squared scale of the first coordinate: n·Σx² − (Σx)². -/
def pearsonDenX (ps : List (ℚ × ℚ)) : ℚ :=
  (ps.length : ℚ) * (ps.map (fun p => p.1 * p.1)).sum
    - (ps.map (fun p => p.1)).sum * (ps.map (fun p => p.1)).sum

/-- Squared scale of the second coordinate: n·Σy² − (Σy)². -/
def pearsonDenY (ps : List (ℚ × ℚ)) : ℚ :=
  (ps.length : ℚ) * (ps.map (fun p => p.2 * p.2)).sum
    - (ps.map (fun p => p.2)).sum * (ps.map (fun p => p.2)).sum

/-- Pearson correlation of two series as pandas computes it:
pairwise-complete observations, and the float `NaN` (modelled `none`)
whenever either column has zero variance on those pairs (this covers
fewer than two pairs). -/
noncomputable def pearson (x y : List (Option ℚ)) : Option ℝ :=
  let ps := pairsComplete x y
  if pearsonDenX ps = 0 ∨ pearsonDenY ps = 0 then none
  else some ((pearsonNum ps : ℝ)
    / (Real.sqrt (pearsonDenX ps) * Real.sqrt (pearsonDenY ps)))

/-- The order of `sort_values(ascending=False)` on a float series:
descending on the defined values, `NaN` entries last. -/
def corrRel (a b : String × Option ℝ) : Prop :=
  match a.2, b.2 with
  | some x, some y => y ≤ x
  | some _, none => True
  | none, some _ => False
  | none, none => True

noncomputable instance : DecidableRel corrRel :=
  fun _ _ => Classical.propDecidable _

instance : IsTotal (String × Option ℝ) corrRel :=
  ⟨fun a b => by
    rcases a with ⟨a1, _ | x⟩ <;> rcases b with ⟨b1, _ | y⟩ <;>
      simp [corrRel]
    exact le_total y x⟩

instance : IsTrans (String × Option ℝ) corrRel :=
  ⟨fun a b c hab hbc => by
    rcases a with ⟨a1, _ | x⟩ <;> rcases b with ⟨b1, _ | y⟩ <;>
      rcases c with ⟨c1, _ | z⟩ <;>
      simp_all [corrRel]
    exact le_trans hbc hab⟩

/-- `df[num_cols].corr()[grade_cols[-1]]`: one entry per numeric column,
the Pearson correlation against the target grade column. -/
noncomputable def corrEntries (t : Table) (tg : String) : List (String × Option ℝ) :=
  (numCols t).map (fun c => (c, pearson (colNum t c) (colNum t tg)))

/-- The correlation report (`corr_with_G3`), sorted descending, guarded
by `if grade_cols`. -/
noncomputable def corrSection (t : Table) : Option (List (String × Option ℝ)) :=
  (targetCol t).map (fun tg => List.insertionSort corrRel (corrEntries t tg))

/-- The files the script writes, in program order, as a function of the
two static flags (the source pins `SHOW_PLOTS = False`, `SAVE_PLOTS =
True`; the spec presents them as configuration).  `plt.show()` writes
nothing; every `to_csv` call is unconditional within its section. -/
def filesWritten (_showPlots savePlots : Bool) (t : Table) : List String :=
  ["missing_values_summary.csv"]
  ++ (if "absences" ∈ t.cols ∧ savePlots = true
      then ["plot_absences_histogram.png"] else [])
  ++ (if "school" ∈ t.cols then ["table_school_distribution.csv"] else [])
  ++ (if "sex" ∈ t.cols then ["table_sex_distribution.csv"] else [])
  ++ (if gradeCols t ≠ [] then ["table_pass_fail_distribution.csv"] else [])
  ++ (if gradeCols t ≠ [] then ["correlation_with_final_grade.csv"] else [])

/-- A two-row table whose final grade G3 is constant (value 10). -/
def ctConst : Table :=
  { cols := ["G3"], rows := [[some (Cell.num 10)], [some (Cell.num 10)]] }

/-- A two-row table with G3 values 10 and 12 (positive variance). -/
def wCorr : Table :=
  { cols := ["G3"], rows := [[some (Cell.num 10)], [some (Cell.num 12)]] }

/-- A table with grade columns G1 and G2 but no G3. -/
def ctG12 : Table :=
  { cols := ["G1", "G2"],
    rows := [[some (Cell.num 8), some (Cell.num 12)]] }

end StudentPerf

namespace StudentPerf

/-- C3 helper: the three-way partition on one numeric series. -/
theorem countP_partition (l : List (Option ℚ)) :
    l.countP (fun ov => match ov with
      | some v => decide (v < 0)
      | none => false)
    + l.countP (fun ov => match ov with
      | some v => decide (20 < v)
      | none => false)
    + l.countP (fun ov => match ov with
      | some v => decide (0 ≤ v) && decide (v ≤ 20)
      | none => false)
    = l.countP (fun ov => ov.isSome) := by
  induction l with
  | nil => simp
  | cons a l ih =>
    cases a with
    | none => simpa [List.countP_cons] using ih
    | some v =>
      by_cases h1 : v < 0
      · have h2 : ¬ 20 < v := by linarith
        have h3 : ¬ (0 ≤ v ∧ v ≤ 20) := by intro h; linarith [h.1]
        simp [List.countP_cons, h1, h2, h3]
        omega
      · by_cases h2 : 20 < v
        · have h3 : ¬ (0 ≤ v ∧ v ≤ 20) := by intro h; linarith [h.2]
          simp [List.countP_cons, h1, h2, h3]
          omega
        · have h3 : 0 ≤ v ∧ v ≤ 20 := ⟨le_of_not_lt h1, le_of_not_lt h2⟩
          simp [List.countP_cons, h1, h2, h3]
          omega

/-- **C3.** For every input table and every grade column present among
{G1, G2, G3}, the reported count of values below 0 plus the reported
count of values above 20 plus the count of values in [0, 20] equals the
total number of non-missing values of that column (the bounds 0 and 20
are the hard-coded ones of the script). -/
theorem grade_partition (t : Table) (g : String) (_hg : g ∈ gradeCols t) :
    invalidLow t g + invalidHigh t g + countInRange t g
      = nonMissingCount t g := by
  unfold invalidLow invalidHigh countInRange nonMissingCount
  exact countP_partition (colNum t g)

/-- Witness for C3: instantiated on `wTable` at column G3 (one missing
value, one value above 20). -/
theorem grade_partition_witness :
    "G3" ∈ gradeCols wTable ∧
      invalidLow wTable "G3" + invalidHigh wTable "G3" + countInRange wTable "G3"
        = nonMissingCount wTable "G3" :=
  ⟨by decide, grade_partition wTable "G3" (by decide)⟩

/-- **C1, counterexample.** On a row whose final grade is missing, the
script's `(df[target] >= 10).astype(int)` produces the integer 0 (pandas
`NaN >= 10` is `False`), not a missing value, so the claimed
"undefined/missing iff final grade missing" fails. -/
theorem pass_fail_missing_counterexample : ¬ specC1 ctMissing "G3" := by
  intro h
  have h0 := (h 0 (by decide)).1
  have hpf : passFailAt ctMissing 0 = none := h0.mpr (by decide)
  exact absurd hpf (by decide)

/-- **C1, amended.** For every table with a final grade column, the
derived pass_fail value of an in-range row is 1 iff the row's final
grade is present and ≥ 10, is 0 otherwise (in particular 0 when the
final grade is missing), and is never itself missing. -/
theorem pass_fail_spec (t : Table) (tg : String)
    (htg : targetCol t = some tg) (i : ℕ) (hi : i < t.rows.length) :
    (passFailAt t i = some 1 ↔ ∃ v, gradeAt t tg i = some v ∧ 10 ≤ v) ∧
    (passFailAt t i = some 0 ↔ ¬ ∃ v, gradeAt t tg i = some v ∧ 10 ≤ v) ∧
    passFailAt t i ≠ none := by
  have htg' : tg ∈ gradeCols t := by
    unfold targetCol at htg
    obtain ⟨hne, heq⟩ := List.mem_getLast?_eq_getLast htg
    rw [heq]
    exact List.getLast_mem hne
  have hcols : tg ∈ t.cols := by
    unfold gradeCols at htg'
    simpa using (List.of_mem_filter htg')
  have hlen : (colNum t tg).length = t.rows.length := by
    unfold colNum getCol
    simp [hcols]
  have hpf : passFailCol t
      = some ((colNum t tg).map (fun ov => if geTen ov then 1 else 0)) := by
    unfold passFailCol
    rw [htg]
    rfl
  obtain ⟨ov, hov⟩ : ∃ ov, (colNum t tg).get? i = some ov := by
    cases hc : (colNum t tg).get? i with
    | none =>
      rw [List.get?_eq_none] at hc
      omega
    | some ov => exact ⟨ov, rfl⟩
  have hov' : (colNum t tg)[i]? = some ov := by
    rw [← List.get?_eq_getElem?]
    exact hov
  have hat : passFailAt t i = some (if geTen ov then 1 else 0) := by
    unfold passFailAt
    rw [hpf]
    simp [List.get?_eq_getElem?, List.getElem?_map, hov']
  have hgr : gradeAt t tg i = ov := by
    unfold gradeAt
    rw [hov]
    rfl
  rw [hat, hgr]
  cases ov with
  | none =>
    refine ⟨?_, ?_, by simp⟩
    · simp [geTen]
    · simp [geTen]
  | some v =>
    by_cases hv : (10 : ℚ) ≤ v
    · refine ⟨?_, ?_, by simp⟩
      · simp [geTen, hv]
      · simp [geTen, hv]
    · refine ⟨?_, ?_, by simp⟩
      · simp [geTen, hv]
      · simp [geTen, hv]

/-- Witness for C1 (amended): on `wTable`, whose final grade column G3
has value 14 in row 0, the pass_fail characterisation holds. -/
theorem pass_fail_spec_witness :
    targetCol wTable = some "G3" ∧ 0 < wTable.rows.length ∧
      ((passFailAt wTable 0 = some 1 ↔
          ∃ v, gradeAt wTable "G3" 0 = some v ∧ 10 ≤ v) ∧
        (passFailAt wTable 0 = some 0 ↔
          ¬ ∃ v, gradeAt wTable "G3" 0 = some v ∧ 10 ≤ v) ∧
        passFailAt wTable 0 ≠ none) :=
  ⟨by decide, by decide, pass_fail_spec wTable "G3" (by decide) 0 (by decide)⟩

theorem duplicatedFlags_length (seen rs : List Row) :
    (duplicatedFlags seen rs).length = rs.length := by
  induction rs generalizing seen with
  | nil => rfl
  | cons r rs ih => simp [duplicatedFlags, ih]

theorem duplicatedFlags_getD (rs : List Row) :
    ∀ (seen : List Row) (i : ℕ), i < rs.length →
      (duplicatedFlags seen rs).getD i false
        = decide (rs.getD i [] ∈ rs.take i ++ seen) := by
  induction rs with
  | nil => intro seen i hi; simp at hi
  | cons r rs ih =>
    intro seen i hi
    cases i with
    | zero => simp [duplicatedFlags]
    | succ i =>
      have hi' : i < rs.length := by simpa using hi
      have := ih (r :: seen) i hi'
      simp only [duplicatedFlags, List.getD_cons_succ, List.take_succ_cons]
      rw [this]
      have hiff : rs.getD i [] ∈ rs.take i ++ r :: seen
          ↔ rs.getD i [] ∈ (r :: rs.take i) ++ seen := by
        simp only [List.mem_append, List.mem_cons]
        tauto
      simp only [decide_eq_decide]
      exact hiff

theorem count_true_eq_countP_range (l : List Bool) :
    l.count true = (List.range l.length).countP (fun i => l.getD i false) := by
  induction l with
  | nil => rfl
  | cons a l ih =>
    rw [List.count_cons, List.length_cons, List.range_succ_eq_map,
      List.countP_cons, List.countP_map]
    have hc : ((fun i => (a :: l).getD i false) ∘ Nat.succ)
        = (fun i => l.getD i false) := by
      funext i
      simp
    rw [hc, ih]
    cases a <;> simp [Nat.add_comm]

/-- The scan with accumulator that embeds `df.duplicated()` counts
exactly the indices whose row already occurs among the earlier rows. -/
theorem dup_count_eq_aux (t : Table) :
    dupCount t = (List.range t.rows.length).countP
      (fun i => decide (t.rows.getD i [] ∈ t.rows.take i)) := by
  unfold dupCount
  rw [count_true_eq_countP_range, duplicatedFlags_length]
  apply List.countP_congr
  intro i hi
  have hi' : i < t.rows.length := List.mem_range.mp hi
  rw [duplicatedFlags_getD t.rows [] i hi']
  simp

/-- **C2, counterexample.** On a table of two identical rows, the number
of rows whose full tuple matches another row's is 2 (each matches the
other), but the script's `df.duplicated().sum()` reports 1 (it flags
only the second occurrence, `keep='first'`). -/
theorem dup_count_counterexample :
    specMatchedRowCount ctDup ≠ dupCount ctDup := by
  decide

/-- **C2, amended.** The reported exact-duplicate count equals the
number of rows whose full tuple already occurs among the *earlier* rows
(each group of k identical rows contributes k − 1, not k); in
particular, on the claim's 5-row end-to-end table with one fully
duplicated row and one G3 value of 25, the reported duplicate count is 1
and the G3 invalid_high count is 1. -/
theorem dup_count_spec :
    (∀ t : Table, dupCount t = (List.range t.rows.length).countP
      (fun i => decide (t.rows.getD i [] ∈ t.rows.take i))) ∧
    dupCount scenario5 = 1 ∧ invalidHigh scenario5 "G3" = 1 :=
  ⟨dup_count_eq_aux, by decide, by decide⟩

theorem ct3_missingCount : missingCount ct3 "age" = 1 := by decide

theorem ct3_percent : missingPercent ct3 "age" = some (3333/100) := by
  unfold missingPercent
  rw [ct3_missingCount]
  have hlen : ct3.rows.length = 3 := by decide
  rw [hlen]
  norm_num [round2, roundHalfEven, round_eq]

/-- **C4, counterexample.** For a 3-row table with one missing age the
report stores 33.33 (the percentage rounded to two decimals, as
`.round(2)` does), which differs from the claimed exact value
100 · missing_count / row_count = 100/3. -/
theorem missing_percent_counterexample :
    missingPercent ct3 "age" = some (3333/100) ∧
      (3333/100 : ℚ) ≠ 100 * (missingCount ct3 "age" : ℚ) / (ct3.rows.length : ℚ) := by
  refine ⟨ct3_percent, ?_⟩
  rw [ct3_missingCount]
  have hlen : ct3.rows.length = 3 := by decide
  rw [hlen]
  norm_num

theorem wTable10_missingCount : missingCount wTable10 "age" = 2 := by decide

theorem wTable10_percent : missingPercent wTable10 "age" = some 20 := by
  unfold missingPercent
  rw [wTable10_missingCount]
  have hlen : wTable10.rows.length = 10 := by decide
  rw [hlen]
  norm_num [round2, roundHalfEven, round_eq]

theorem wTable10_report : missingReport wTable10 = [("age", 2, some 20)] := by
  unfold missingReport missingEntries
  rw [show wTable10.cols = ["age"] from rfl]
  simp [List.insertionSort, List.orderedInsert, wTable10_missingCount,
    wTable10_percent]

/-- **C4, amended.** For every non-empty table, every column's line in
the missing-values report carries its missing count together with the
percentage 100 · missing_count / row_count rounded to two decimal
places (ties to even), and the report is sorted descending by missing
count; the claim's 10-row scenario with 2 missing ages reports count 2
and percent 20.0 (exact there, since no rounding occurs). -/
theorem missing_report_spec :
    (∀ t : Table, t.rows ≠ [] →
      (∀ c ∈ t.cols,
        (c, missingCount t c,
          some (round2 ((missingCount t c : ℚ) / (t.rows.length : ℚ) * 100)))
          ∈ missingReport t) ∧
      (missingReport t).Sorted missingRel) ∧
    ("age", 2, some 20) ∈ missingReport wTable10 ∧
    missingPercent wTable10 "age" = some 20 := by
  refine ⟨fun t ht => ⟨fun c hc => ?_, ?_⟩,
    by rw [wTable10_report]; exact List.mem_singleton_self _,
    wTable10_percent⟩
  · have hn : t.rows.length ≠ 0 := by
      simpa [List.length_eq_zero] using ht
    have hp : missingPercent t c
        = some (round2 ((missingCount t c : ℚ) / (t.rows.length : ℚ) * 100)) := by
      unfold missingPercent
      rw [if_neg hn]
    unfold missingReport
    rw [List.mem_insertionSort]
    rw [← hp]
    exact List.mem_map_of_mem _ hc
  · exact List.sorted_insertionSort missingRel (missingEntries t)

/-- Witness for C4 (amended): the 10-row table with 2 missing ages. -/
theorem missing_report_spec_witness :
    wTable10.rows ≠ [] ∧ "age" ∈ wTable10.cols ∧
      ("age", missingCount wTable10 "age",
        some (round2 ((missingCount wTable10 "age" : ℚ)
          / (wTable10.rows.length : ℚ) * 100)))
        ∈ missingReport wTable10 :=
  ⟨by decide, by decide,
    (missing_report_spec.1 wTable10 (by decide)).1 "age" (by decide)⟩

/-- **C7.** On a 0-row table the script does not crash: the
missing-values report is still produced with one line per column, every
missing count is 0 and every percentage is the float `0/0 = NaN`
(undefined), deterministically — the first of the two behaviours the
claim allows. -/
theorem empty_table_missing_report (t : Table) (h : t.rows = []) :
    (missingReport t).length = t.cols.length ∧
    ∀ e ∈ missingReport t, e.2.1 = 0 ∧ e.2.2 = none := by
  constructor
  · unfold missingReport missingEntries
    rw [List.length_insertionSort, List.length_map]
  · intro e he
    unfold missingReport at he
    rw [List.mem_insertionSort] at he
    obtain ⟨c, hc, rfl⟩ := List.mem_map.mp he
    refine ⟨?_, ?_⟩
    · unfold missingCount getCol
      by_cases hmem : c ∈ t.cols
      · simp [hmem, h]
      · simp [hmem]
    · unfold missingPercent
      rw [h]
      simp

/-- Witness for C7: the concrete empty table with columns age and G3. -/
theorem empty_table_missing_report_witness :
    ctEmpty.rows = [] ∧
      ((missingReport ctEmpty).length = ctEmpty.cols.length ∧
        ∀ e ∈ missingReport ctEmpty, e.2.1 = 0 ∧ e.2.2 = none) :=
  ⟨rfl, empty_table_missing_report ctEmpty rfl⟩

theorem mem_uniquesAux {α : Type} [DecidableEq α] (l : List α) :
    ∀ (seen : List α) (x : α), x ∈ uniquesAux seen l ↔ x ∈ l ∧ x ∉ seen := by
  induction l with
  | nil => intro seen x; simp [uniquesAux]
  | cons a as ih =>
    intro seen x
    by_cases ha : a ∈ seen
    · rw [uniquesAux, if_pos ha, ih]
      constructor
      · rintro ⟨hx, hs⟩
        exact ⟨List.mem_cons_of_mem _ hx, hs⟩
      · rintro ⟨hx, hs⟩
        rcases List.mem_cons.mp hx with rfl | hx
        · exact absurd ha hs
        · exact ⟨hx, hs⟩
    · rw [uniquesAux, if_neg ha]
      simp only [List.mem_cons, ih (a :: seen) x]
      constructor
      · rintro (rfl | ⟨hx, hs⟩)
        · exact ⟨Or.inl rfl, ha⟩
        · exact ⟨Or.inr hx, fun hxs => hs (Or.inr hxs)⟩
      · rintro ⟨rfl | hx, hs⟩
        · exact Or.inl rfl
        · by_cases hxa : x = a
          · exact Or.inl hxa
          · exact Or.inr ⟨hx, fun hc => (hc.elim hxa hs : False)⟩

theorem mem_valueCounts {α : Type} [DecidableEq α] (l : List α) (p : α × ℕ) :
    p ∈ valueCounts l ↔ p.1 ∈ l ∧ p.2 = l.count p.1 := by
  obtain ⟨a, n⟩ := p
  unfold valueCounts
  rw [List.mem_insertionSort, List.mem_map]
  constructor
  · rintro ⟨v, hv, hveq⟩
    rw [mem_uniquesAux] at hv
    have h1 : v = a := congrArg Prod.fst hveq
    have h2 : l.count v = n := congrArg Prod.snd hveq
    subst h1
    exact ⟨hv.1, h2.symm⟩
  · rintro ⟨h1, h2⟩
    dsimp only at h1 h2
    exact ⟨a, (mem_uniquesAux l [] a).mpr ⟨h1, by simp⟩, by rw [h2]⟩

theorem ctAge_ageDist : ageDist ctAge = [(15, 2), (16, 1), (17, 1)] := by
  decide

/-- **C6, counterexample.** On ages [15, 15, 16, 17] the script prints
the raw counts [(15, 2), (16, 1), (17, 1)] (it calls
`value_counts().sort_index()` with no normalization), not the
normalized percentages [(15, 50), (16, 25), (17, 25)] the claim
describes. -/
theorem age_dist_counterexample :
    ¬ ((ageDist ctAge).map (fun p => ((p.1 : ℚ), (p.2 : ℚ)))
        = specAgeDistNormalized ctAge) := by
  intro h
  have hv : valueCounts (colVals ctAge "age") = [(15, 2), (16, 1), (17, 1)] := by
    decide
  have hlen : (colVals ctAge "age").length = 4 := by decide
  have h1 : ((15 : ℚ), (50 : ℚ)) ∈ specAgeDistNormalized ctAge := by
    unfold specAgeDistNormalized
    rw [List.mem_insertionSort, hv, hlen]
    have he : ((15 : ℚ), (50 : ℚ))
        = (((15 : ℚ), (2 : ℕ)).1, (((15 : ℚ), (2 : ℕ)).2 : ℚ) / ((4 : ℕ) : ℚ) * 100) := by
      norm_num
    rw [he]
    exact List.mem_map_of_mem _ (by simp)
  have h2 : ((15 : ℚ), (50 : ℚ)) ∉ (ageDist ctAge).map
      (fun p => ((p.1 : ℚ), (p.2 : ℚ))) := by
    rw [ctAge_ageDist]
    intro hmem
    simp only [List.map, List.mem_cons, List.not_mem_nil] at hmem
    rcases hmem with h' | h' | h' | h'
    · exact absurd (congrArg Prod.snd h') (by norm_num)
    · exact absurd (congrArg Prod.fst h') (by norm_num)
    · exact absurd (congrArg Prod.fst h') (by norm_num)
    · exact h'
  rw [h] at h2
  exact h2 h1

/-- **C6, amended.** For every table with an age column, the printed age
distribution is the *raw* frequency distribution sorted ascending by
age value (unlike school, sex and parental education, which are printed
normalized): it is sorted by age, each entry pairs an occurring age
with its exact count, and every occurring age appears. -/
theorem age_dist_spec (t : Table) (_h : "age" ∈ t.cols) :
    (ageDist t).Sorted idxRel ∧
    (∀ p ∈ ageDist t, p.1 ∈ colVals t "age" ∧ p.2 = (colVals t "age").count p.1) ∧
    (∀ v ∈ colVals t "age", (v, (colVals t "age").count v) ∈ ageDist t) := by
  refine ⟨List.sorted_insertionSort idxRel _, fun p hp => ?_, fun v hv => ?_⟩
  · rw [ageDist, List.mem_insertionSort, mem_valueCounts] at hp
    exact hp
  · rw [ageDist, List.mem_insertionSort, mem_valueCounts]
    exact ⟨hv, rfl⟩

/-- Witness for C6 (amended): the four-row age table. -/
theorem age_dist_spec_witness :
    "age" ∈ ctAge.cols ∧
      ((ageDist ctAge).Sorted idxRel ∧
        (∀ p ∈ ageDist ctAge,
          p.1 ∈ colVals ctAge "age" ∧ p.2 = (colVals ctAge "age").count p.1) ∧
        (∀ v ∈ colVals ctAge "age",
          (v, (colVals ctAge "age").count v) ∈ ageDist ctAge)) :=
  ⟨by decide, age_dist_spec ctAge (by decide)⟩

/-- **C8.** Every guarded report section is produced iff its column is
present (and silently skipped iff absent): absences describe, school /
sex / age distributions, the two parental-education distributions, the
per-grade validity lines, the pass/fail label and the correlation
report (both keyed to any of G1, G2, G3 being present); the
missing-values report is always produced with one line per column.  All
sections are total functions of the table: no absence makes another
section fail. -/
theorem sections_guarded (t : Table) :
    ((absencesSection t).isSome ↔ "absences" ∈ t.cols) ∧
    ((schoolSection t).isSome ↔ "school" ∈ t.cols) ∧
    ((sexSection t).isSome ↔ "sex" ∈ t.cols) ∧
    ((ageSection t).isSome ↔ "age" ∈ t.cols) ∧
    ((meduSection t).isSome ↔ "Medu" ∈ t.cols) ∧
    ((feduSection t).isSome ↔ "Fedu" ∈ t.cols) ∧
    (∀ g, (g, invalidLow t g, invalidHigh t g) ∈ gradeValiditySection t
      ↔ (g = "G1" ∨ g = "G2" ∨ g = "G3") ∧ g ∈ t.cols) ∧
    ((passFailCol t).isSome ↔ ("G1" ∈ t.cols ∨ "G2" ∈ t.cols ∨ "G3" ∈ t.cols)) ∧
    ((corrSection t).isSome ↔ ("G1" ∈ t.cols ∨ "G2" ∈ t.cols ∨ "G3" ∈ t.cols)) ∧
    (missingReport t).length = t.cols.length := by
  have hgr : ∀ g, g ∈ gradeCols t ↔ (g = "G1" ∨ g = "G2" ∨ g = "G3") ∧ g ∈ t.cols := by
    intro g
    unfold gradeCols
    rw [List.mem_filter]
    simp
  have hne : (gradeCols t ≠ []) ↔ ("G1" ∈ t.cols ∨ "G2" ∈ t.cols ∨ "G3" ∈ t.cols) := by
    unfold gradeCols
    by_cases h1 : "G1" ∈ t.cols <;> by_cases h2 : "G2" ∈ t.cols <;>
      by_cases h3 : "G3" ∈ t.cols <;> simp [List.filter_cons, h1, h2, h3]
  refine ⟨?_, ?_, ?_, ?_, ?_, ?_, ?_, ?_, ?_, ?_⟩
  · by_cases h : "absences" ∈ t.cols <;> simp [absencesSection, h]
  · by_cases h : "school" ∈ t.cols <;> simp [schoolSection, h]
  · by_cases h : "sex" ∈ t.cols <;> simp [sexSection, h]
  · by_cases h : "age" ∈ t.cols <;> simp [ageSection, h]
  · by_cases h : "Medu" ∈ t.cols <;> simp [meduSection, h]
  · by_cases h : "Fedu" ∈ t.cols <;> simp [feduSection, h]
  · intro g
    rw [← hgr]
    unfold gradeValiditySection
    rw [List.mem_map]
    constructor
    · rintro ⟨g', hg', heq⟩
      have : g' = g := congrArg (fun p => p.1) heq
      rwa [this] at hg'
    · intro hg
      exact ⟨g, hg, rfl⟩
  · rw [← hne, ← List.getLast?_isSome]
    unfold passFailCol targetCol
    cases (gradeCols t).getLast? <;> simp
  · rw [← hne, ← List.getLast?_isSome]
    unfold corrSection targetCol
    cases (gradeCols t).getLast? <;> simp
  · unfold missingReport missingEntries
    rw [List.length_insertionSort, List.length_map]

/-- **C9, counterexample.** With both flags off the script still writes
the missing-values summary and the distribution tables: the `to_csv`
calls are unconditional, no save flag governs them, so "when the flags
are off, no such files are written" fails. -/
theorem files_flags_counterexample :
    "missing_values_summary.csv" ∈ filesWritten false false wTable ∧
    "table_school_distribution.csv" ∈ filesWritten false false wTable := by
  decide

/-- **C9, amended.** The histogram image is written iff SAVE_PLOTS is
set and the absences column is present; the summary-table CSV files
(missing values, school / sex / pass-fail distributions, correlation)
are written unconditionally whenever their section runs — no flag
governs them; SHOW_PLOTS writes no file at all. -/
theorem files_spec (sp sv : Bool) (t : Table) :
    ("plot_absences_histogram.png" ∈ filesWritten sp sv t
      ↔ ("absences" ∈ t.cols ∧ sv = true)) ∧
    "missing_values_summary.csv" ∈ filesWritten sp sv t ∧
    ("table_school_distribution.csv" ∈ filesWritten sp sv t ↔ "school" ∈ t.cols) ∧
    ("table_sex_distribution.csv" ∈ filesWritten sp sv t ↔ "sex" ∈ t.cols) ∧
    ("table_pass_fail_distribution.csv" ∈ filesWritten sp sv t ↔ gradeCols t ≠ []) ∧
    ("correlation_with_final_grade.csv" ∈ filesWritten sp sv t ↔ gradeCols t ≠ []) ∧
    filesWritten sp sv t = filesWritten true sv t := by
  by_cases ha : "absences" ∈ t.cols ∧ sv = true <;>
    by_cases hs : "school" ∈ t.cols <;>
    by_cases hx : "sex" ∈ t.cols <;>
    by_cases hg : gradeCols t ≠ [] <;>
    simp [filesWritten, ha, hs, hx, hg]

/-- **C10.** When at least one grade column is present, the pass/fail
section and the correlation section are both produced, and their common
target `grade_cols[-1]` is the last present column in the order
(G1, G2, G3): G3 when present, else G2 when present, else G1. -/
theorem target_is_last_grade (t : Table)
    (h : "G1" ∈ t.cols ∨ "G2" ∈ t.cols ∨ "G3" ∈ t.cols) :
    (passFailCol t).isSome ∧ (corrSection t).isSome ∧
    targetCol t = some (if "G3" ∈ t.cols then "G3"
      else if "G2" ∈ t.cols then "G2" else "G1") := by
  have htc : targetCol t = some (if "G3" ∈ t.cols then "G3"
      else if "G2" ∈ t.cols then "G2" else "G1") := by
    by_cases h1 : "G1" ∈ t.cols <;> by_cases h2 : "G2" ∈ t.cols <;>
      by_cases h3 : "G3" ∈ t.cols <;>
      simp [targetCol, gradeCols, List.filter_cons, h1, h2, h3]
    tauto
  refine ⟨?_, ?_, htc⟩
  · unfold passFailCol
    rw [htc]
    rfl
  · unfold corrSection
    rw [htc]
    rfl

/-- Witness for C10: on a table with G1 and G2 but no G3, the target is
G2 and both sections are produced. -/
theorem target_is_last_grade_witness :
    ("G1" ∈ ctG12.cols ∨ "G2" ∈ ctG12.cols ∨ "G3" ∈ ctG12.cols) ∧
      ((passFailCol ctG12).isSome ∧ (corrSection ctG12).isSome ∧
        targetCol ctG12 = some (if "G3" ∈ ctG12.cols then "G3"
          else if "G2" ∈ ctG12.cols then "G2" else "G1")) :=
  ⟨by decide, target_is_last_grade ctG12 (by decide)⟩

theorem pairsComplete_self (x : List (Option ℚ)) :
    pairsComplete x x = (x.filterMap id).map (fun a => (a, a)) := by
  induction x with
  | nil => rfl
  | cons a xs ih =>
    cases a with
    | none => simpa [pairsComplete] using ih
    | some v => simp [pairsComplete, ih]

theorem pearsonDenY_self (x : List (Option ℚ)) :
    pearsonDenY (pairsComplete x x) = pearsonDenX (pairsComplete x x) := by
  rw [pairsComplete_self]
  unfold pearsonDenX pearsonDenY
  simp only [List.map_map, List.length_map]
  rfl

theorem pearsonNum_self (x : List (Option ℚ)) :
    pearsonNum (pairsComplete x x) = pearsonDenX (pairsComplete x x) := by
  rw [pairsComplete_self]
  unfold pearsonNum pearsonDenX
  simp only [List.map_map, List.length_map]
  rfl

/-- A series correlates with itself to exactly 1 whenever its variance
over its present values is positive. -/
theorem pearson_self (x : List (Option ℚ))
    (h : 0 < pearsonDenX (pairsComplete x x)) : pearson x x = some 1 := by
  unfold pearson
  rw [if_neg]
  · have hpos : (0 : ℝ) < ((pearsonDenX (pairsComplete x x) : ℚ) : ℝ) := by
      exact_mod_cast h
    rw [pearsonNum_self, pearsonDenY_self,
      Real.mul_self_sqrt hpos.le, div_self (ne_of_gt hpos)]
  · rw [pearsonDenY_self]
    push_neg
    exact ⟨ne_of_gt h, ne_of_gt h⟩

/-- **C5, amended.** When a final grade column is present and numeric
and its non-missing values have positive variance, the correlation
report is produced, contains the target correlated with itself equal to
1.0, and is sorted descending on the defined correlation values (NaN
entries last).  For a zero-variance target the self-entry is NaN, not
1.0. -/
theorem corr_report_spec (t : Table) (tg : String)
    (htg : targetCol t = some tg) (hnum : tg ∈ numCols t)
    (hvar : 0 < pearsonDenX (pairsComplete (colNum t tg) (colNum t tg))) :
    ∃ rep, corrSection t = some rep ∧ (tg, some (1 : ℝ)) ∈ rep ∧
      rep.Sorted corrRel := by
  refine ⟨List.insertionSort corrRel (corrEntries t tg), ?_, ?_, ?_⟩
  · unfold corrSection
    rw [htg]
    rfl
  · rw [List.mem_insertionSort]
    rw [← pearson_self (colNum t tg) hvar]
    exact List.mem_map_of_mem _ hnum
  · exact List.sorted_insertionSort corrRel _

theorem wCorr_var :
    0 < pearsonDenX (pairsComplete (colNum wCorr "G3") (colNum wCorr "G3")) := by
  have hcol : colNum wCorr "G3" = [some 10, some 12] := by decide
  rw [hcol]
  have hps : pairsComplete [some (10 : ℚ), some 12] [some (10 : ℚ), some 12]
      = [((10 : ℚ), (10 : ℚ)), (12, 12)] := rfl
  rw [hps]
  unfold pearsonDenX
  norm_num

/-- Witness for C5 (amended): a two-row table with G3 values 10 and 12. -/
theorem corr_report_spec_witness :
    targetCol wCorr = some "G3" ∧ "G3" ∈ numCols wCorr ∧
      0 < pearsonDenX (pairsComplete (colNum wCorr "G3") (colNum wCorr "G3")) ∧
      ∃ rep, corrSection wCorr = some rep ∧ ("G3", some (1 : ℝ)) ∈ rep ∧
        rep.Sorted corrRel :=
  ⟨by decide, by decide, wCorr_var,
    corr_report_spec wCorr "G3" (by decide) (by decide) wCorr_var⟩

/-- **C5, counterexample.** On a table whose final grade column G3 is
constant (two rows of 10), the correlation report is produced but its
G3 entry is the float `NaN` (pandas: zero variance), not 1.0: the
claimed self-correlation entry of 1.0 is absent. -/
theorem corr_const_counterexample :
    corrSection ctConst ≠ none ∧
    ("G3", some (1 : ℝ)) ∉ (corrSection ctConst).getD [] := by
  have htc : targetCol ctConst = some "G3" := by decide
  have hsec : corrSection ctConst
      = some (List.insertionSort corrRel (corrEntries ctConst "G3")) := by
    unfold corrSection
    rw [htc]
    rfl
  constructor
  · rw [hsec]
    simp
  · intro hmem
    rw [hsec] at hmem
    rw [Option.getD_some, List.mem_insertionSort] at hmem
    have hent : corrEntries ctConst "G3"
        = [("G3", pearson (colNum ctConst "G3") (colNum ctConst "G3"))] := by
      unfold corrEntries
      rw [show numCols ctConst = ["G3"] from by decide]
      rfl
    rw [hent] at hmem
    have hcol : colNum ctConst "G3" = [some 10, some 10] := by decide
    have hp : pearson (colNum ctConst "G3") (colNum ctConst "G3") = none := by
      rw [hcol]
      unfold pearson
      rw [if_pos]
      left
      have hps : pairsComplete [some (10 : ℚ), some 10] [some (10 : ℚ), some 10]
          = [((10 : ℚ), (10 : ℚ)), (10, 10)] := rfl
      rw [hps]
      unfold pearsonDenX
      norm_num
    rw [hp] at hmem
    simp at hmem

end StudentPerf
